import Mathlib

/-!
Shallow embedding of the capture engine in `src/capture.c` (ustreamer).

The C code is a single-threaded mainloop over a V4L2 device descriptor,
wrapped in a retry state machine, plus a worker-pool lifecycle and small
helpers (`_capture_control`, `_capture_grab_buffer`, `_capture_release_buffer`,
`_capture_handle_event`, `_capture_init_workers`, `_capture_worker_thread`).

External effects (select(2), ioctl VIDIOC_DQBUF/QBUF/DQEVENT/STREAMON/STREAMOFF,
device_open, calloc, pthread primitives, and reads of the `stop` flag) are
modelled by an environment oracle: each kind of call is given its outcome by a
function of a call counter.  Reads of the volatile `stop` flag get their own
counter `t`, so "the stop signal at the n-th read" is `env.stop n`.  The
observable behaviour of a run is a trace of `Action`s.
-/

namespace Capture

/-- Configuration fields of `struct device` used by the mainloop
(`every_frame`, `min_frame_size`) and the negotiated buffer count
`dev->run->n_buffers`.  All are `unsigned` in C, hence `Nat`. -/
structure Dev where
  everyFrame : Nat
  minFrameSize : Nat
  nBuffers : Nat
deriving Repr, DecidableEq

/-- Outcome of one `select()` call in the mainloop:
`interrupted` is `retval < 0 && errno == EINTR`; `selErr` is any other
negative return; `timeout` is `retval == 0`; `ready r w e` is a positive
return with the read/write/error fd_sets containing the device fd. -/
inductive SelectOutcome where
  | interrupted
  | selErr
  | timeout
  | ready (r w e : Bool)
deriving Repr, DecidableEq

/-- Outcome of one `ioctl(VIDIOC_DQBUF)` call inside `_capture_grab_buffer`:
failure, or success with the dequeued buffer's `index` and `bytesused`. -/
inductive GrabOutcome where
  | dqbufFail
  | dqbufOk (idx bytes : Nat)
deriving Repr, DecidableEq

/-- Outcome of one `ioctl(VIDIOC_DQEVENT)` call inside `_capture_handle_event`:
failure, or success with the dequeued `event.type`. -/
inductive EventOutcome where
  | dqeventFail
  | dqeventOk (etype : Nat)
deriving Repr, DecidableEq

/-- Environment oracle: outcomes of all external calls, each indexed by its
own call counter.  `stop n` is the value of the volatile stop flag at its
n-th read; `initOk a` abstracts the outcome of the a-th `_capture_init`
attempt (device_open + stream start + worker spawn); `select`, `grab`,
`releaseOk` and `event` are indexed by the mainloop iteration number. -/
structure Env where
  stop : Nat → Bool
  initOk : Nat → Bool
  select : Nat → SelectOutcome
  grab : Nat → GrabOutcome
  releaseOk : Nat → Bool
  event : Nat → EventOutcome

/-- Observable actions of a run, in program order. -/
inductive Action where
  | dequeued (idx bytes : Nat)
  | acquired (idx bytes : Nat)
  | dropSkip (idx : Nat)
  | dropSmall (idx : Nat)
  | compress (idx : Nat)
  | releaseCall (idx : Nat)
  | destroyWorkers
  | controlOff
  | closeDevice
deriving Repr, DecidableEq

/-- `V4L2_EVENT_EOS` from `linux/videodev2.h`. -/
def V4L2_EVENT_EOS : Nat := 2

/-- `V4L2_EVENT_SOURCE_CHANGE` from `linux/videodev2.h`. -/
def V4L2_EVENT_SOURCE_CHANGE : Nat := 5

/-- `_capture_handle_event`: dequeue one event; `V4L2_EVENT_SOURCE_CHANGE`
returns -1, `V4L2_EVENT_EOS` returns 0, any other type falls out of the
switch and returns 0, and a failed `VIDIOC_DQEVENT` also returns 0. -/
def captureHandleEvent : EventOutcome → Int
  | .dqeventFail => 0
  | .dqeventOk etype =>
      if etype = V4L2_EVENT_SOURCE_CHANGE then -1
      else if etype = V4L2_EVENT_EOS then 0
      else 0

/-- `_capture_control(dev, enable)` given the recorded `dev->run->capturing`
flag and the outcome of the STREAMON/STREAMOFF ioctl (consulted only when it
is issued).  Returns (C return value, new capturing flag, number of ioctl
calls issued).  Mirrors the source: no-op when `enable == capturing`; on
ioctl failure it returns -1 only when `enable`, otherwise it still records
`capturing = enable` and returns 0. -/
def captureControl (capturing enable ioctlOk : Bool) : Int × Bool × Nat :=
  if enable ≠ capturing then
    if ioctlOk = false ∧ enable = true then (-1, capturing, 1)
    else (0, enable, 1)
  else (0, capturing, 0)

/-- The frame-skip / minimum-size policy applied to an acquired buffer
(`capture_loop` lines 80--102): given the session's `frames_count` and the
buffer's index and `bytesused`, returns the new `frames_count` and the
decision action (`dropSkip`, `dropSmall` or `compress`). -/
def framePolicy (dev : Dev) (fc idx bytes : Nat) : Nat × Action :=
  if dev.everyFrame ≠ 0 then
    if fc < dev.everyFrame - 1 then (fc + 1, .dropSkip idx)
    else
      if bytes < dev.minFrameSize then (0, .dropSmall idx)
      else (0, .compress idx)
  else
    if bytes < dev.minFrameSize then (fc, .dropSmall idx)
    else (fc, .compress idx)

/-- The read-ready branch of one mainloop iteration: `_capture_grab_buffer`
(DQBUF plus the defensive index-range check), the frame policy, then
`_capture_release_buffer` (always reached via `pass_frame`).  Returns
`none` when the branch hits `break` (grab or release failure), otherwise
`some` of the new `frames_count`; paired with the action trace. -/
def readPhase (dev : Dev) (env : Env) (it fc : Nat) : Option Nat × List Action :=
  match env.grab it with
  | .dqbufFail => (none, [])
  | .dqbufOk idx bytes =>
      if dev.nBuffers ≤ idx then
        (none, [.dequeued idx bytes])
      else
        let p := framePolicy dev fc idx bytes
        let acts : List Action :=
          [.dequeued idx bytes, .acquired idx bytes, p.2, .releaseCall idx]
        if env.releaseOk it then (some p.1, acts) else (none, acts)

/-- Result of one mainloop iteration: continue with a new `frames_count`,
or `break` out of the session mainloop (fatal for the session). -/
inductive IterStep where
  | cont (fc : Nat)
  | fatal
deriving Repr, DecidableEq

/-- One iteration of the session mainloop (`capture_loop` lines 37--122),
after the `stop` check: select, then in order the read branch, the write
branch, and the error/event branch, with the `break` statements of the
source mapped to `IterStep.fatal`. -/
def iteration (dev : Dev) (env : Env) (it fc : Nat) : IterStep × List Action :=
  match env.select it with
  | .interrupted => (.cont fc, [])
  | .selErr => (.fatal, [])
  | .timeout => (.fatal, [])
  | .ready r w e =>
      match (if r then readPhase dev env it fc else (some fc, [])) with
      | (none, acts) => (.fatal, acts)
      | (some fc', acts) =>
          if w then (.fatal, acts)
          else if e then
            if captureHandleEvent (env.event it) < 0 then (.fatal, acts)
            else (.cont fc', acts)
          else (.cont fc', acts)

/-- `_capture_init_loop`: retry `_capture_init` with a delay until it
succeeds or the stop flag is observed set.  `t` counts stop-flag reads and
`a` counts init attempts; returns `(next t, next a, success)`.  The Bool is
`true` for `retval == 0` (init succeeded, `break`) and `false` for the
while-condition exit (stop observed set, `retval` still -1). -/
def initLoop (env : Env) : Nat → Nat → Nat → Option (Nat × Nat × Bool)
  | 0, _, _ => none
  | fuel + 1, t, a =>
      if env.stop t then some (t + 1, a, false)
      else if env.initOk a then some (t + 1, a + 1, true)
      else initLoop env fuel (t + 1) (a + 1)

/-- The inner session mainloop (`while (!(*stop)) { ... }`): each pass reads
the stop flag, then runs one `iteration`.  Returns
`(next t, next it, exited-via-stop?, trace)`; the Bool is `true` when the
while condition saw stop set and `false` when an iteration hit `break`. -/
def mainloop (dev : Dev) (env : Env) : Nat → Nat → Nat → Nat →
    Option (Nat × Nat × Bool × List Action)
  | 0, _, _, _ => none
  | fuel + 1, t, it, fc =>
      if env.stop t then some (t + 1, it, true, [])
      else
        match iteration dev env it fc with
        | (.fatal, acts) => some (t + 1, it + 1, false, acts)
        | (.cont fc', acts) =>
            match mainloop dev env fuel (t + 1) (it + 1) fc' with
            | none => none
            | some (t', it', b, rest) => some (t', it', b, acts ++ rest)

/-- The epilogue of `capture_loop` (lines 126--128): destroy the workers,
`_capture_control(dev, false)`, `device_close(dev)`. -/
def teardownActs : List Action := [.destroyWorkers, .controlOff, .closeDevice]

/-- `capture_loop` after its prologue: the outer
`while (_capture_init_loop(...) == 0)` loop followed by the teardown
epilogue.  Each outer pass re-runs `_capture_init_loop` and, on success, a
fresh session mainloop with `frames_count = 0`.  Returns `some` of the final
stop-read counter and the action trace when the run finishes within `fuel`
outer passes. -/
def captureLoopAux (dev : Dev) (env : Env) : Nat → Nat → Nat → Nat →
    Option (Nat × List Action)
  | 0, _, _, _ => none
  | fuel + 1, t, a, it =>
      match initLoop env (fuel + 1) t a with
      | none => none
      | some (t', _, false) => some (t', teardownActs)
      | some (t', a', true) =>
          match mainloop dev env (fuel + 1) t' it 0 with
          | none => none
          | some (t'', it', _, acts) =>
              match captureLoopAux dev env fuel t'' a' it' with
              | none => none
              | some (tf, rest) => some (tf, acts ++ rest)

/-- `_capture_worker_thread` body after the greeting: `while (!*(params.stop));`.
`t` counts this worker's reads of the stop flag; returns the read index at
which the loop observed the flag set, or `none` if `fuel` reads all saw it
clear. -/
def workerBody (stop : Nat → Bool) : Nat → Nat → Option Nat
  | 0, _ => none
  | fuel + 1, t => if stop t then some t else workerBody stop fuel (t + 1)

/-- `_capture_destroy_workers` joining a non-empty pool: `pthread_join` on
every worker returns only after that worker's body has terminated.  `start i`
is worker i's first stop-read index; the join of the whole pool completes
exactly when every body terminates within its fuel. -/
def joinWorkers (stop : Nat → Bool) (n fuel : Nat) (start : Nat → Nat) : Bool :=
  (List.range n).all fun i => (workerBody stop fuel (start i)).isSome

/-- Per-call outcomes of the external calls made by `_capture_init_workers`:
`calloc` for the pool array, the pool-level `pthread_mutex_init` /
`pthread_cond_init`, and per worker i its mutex init, cond init and
`pthread_create`. -/
structure WorkersEnv where
  callocOk : Bool
  poolMutexOk : Bool
  poolCondOk : Bool
  mutexOk : Nat → Bool
  condOk : Nat → Bool
  createOk : Nat → Bool

/-- How `_capture_init_workers` ends: `ok` is `return 0`; `fail` is
`return -1` (reported to the caller); `aborted` is a failed
`assert(!pthread_...)`, which aborts the whole process. -/
inductive WorkersOutcome where
  | ok
  | fail
  | aborted
deriving Repr, DecidableEq

/-- The per-index spawn loop of `_capture_init_workers` (lines 181--196):
each index asserts its mutex init, cond init and `pthread_create`; any
failure trips an `assert` and aborts. -/
def initWorkersLoop (wenv : WorkersEnv) : Nat → Nat → WorkersOutcome
  | 0, _ => .ok
  | k + 1, i =>
      if wenv.mutexOk i = false then .aborted
      else if wenv.condOk i = false then .aborted
      else if wenv.createOk i = false then .aborted
      else initWorkersLoop wenv k (i + 1)

/-- `_capture_init_workers`: `calloc` failure returns -1; then the
pool-level mutex and cond inits are wrapped in `assert`, as is everything in
the spawn loop, so any of their failures aborts the process. -/
def initWorkers (n : Nat) (wenv : WorkersEnv) : WorkersOutcome :=
  if wenv.callocOk = false then .fail
  else if wenv.poolMutexOk = false then .aborted
  else if wenv.poolCondOk = false then .aborted
  else initWorkersLoop wenv n 0

/-- The per-index pthread calls of the spawn loop all succeed, for `k`
indices starting at `i`. -/
def loopOk (wenv : WorkersEnv) : Nat → Nat → Bool
  | 0, _ => true
  | k + 1, i =>
      (wenv.mutexOk i && wenv.condOk i && wenv.createOk i) && loopOk wenv k (i + 1)

/-- All the `assert`-guarded pthread calls of `_capture_init_workers`
succeed (pool-level primitives plus every worker's primitives and thread). -/
def allPthreadOk (n : Nat) (wenv : WorkersEnv) : Bool :=
  wenv.poolMutexOk && wenv.poolCondOk && loopOk wenv n 0

/-! Concrete devices and environments used to instantiate the theorems. -/

/-- A device with all mainloop-relevant fields zero. -/
def dev0 : Dev := ⟨0, 0, 0⟩

/-- The device of the spec's skip-policy scenario: `--every-frame=3`,
`min_frame_size = 8000`, six negotiated buffers. -/
def devSkip : Dev := ⟨3, 8000, 6⟩

/-- Reported frame sizes of the spec's skip-policy scenario. -/
def sizesSkip : List Nat := [9000, 9000, 500, 9000, 9000, 9000]

/-- Environment of the spec's skip-policy scenario: stop is observed clear
for the six frame iterations and set at the seventh read; every select
reports read-ready only; the i-th dequeue yields buffer i with the i-th
reported size; every requeue succeeds. -/
def envSkip : Env where
  stop := fun t => 6 ≤ t
  initOk := fun _ => true
  select := fun _ => .ready true false false
  grab := fun i => .dqbufOk i (sizesSkip.getD i 0)
  releaseOk := fun _ => true
  event := fun _ => .dqeventFail

/-- An environment whose stop flag is set from the very first read. -/
def envStopNow : Env where
  stop := fun _ => true
  initOk := fun _ => true
  select := fun _ => .timeout
  grab := fun _ => .dqbufFail
  releaseOk := fun _ => false
  event := fun _ => .dqeventFail

/-- An environment whose first select reports write-ready only. -/
def envWrite : Env where
  stop := fun _ => false
  initOk := fun _ => true
  select := fun _ => .ready false true false
  grab := fun _ => .dqbufFail
  releaseOk := fun _ => true
  event := fun _ => .dqeventFail

/-- An environment whose first select is read-ready and whose first dequeue
returns the out-of-range buffer index 9. -/
def envBadIndex : Env where
  stop := fun _ => false
  initOk := fun _ => true
  select := fun _ => .ready true false false
  grab := fun _ => .dqbufOk 9 5000
  releaseOk := fun _ => true
  event := fun _ => .dqeventFail

/-- A worker-pool environment where every call succeeds except
`pthread_create` (which fails on every index). -/
def wenvCreateFail : WorkersEnv where
  callocOk := true
  poolMutexOk := true
  poolCondOk := true
  mutexOk := fun _ => true
  condOk := fun _ => true
  createOk := fun _ => false

/-- Recognizer for `compress` actions. -/
def isCompressAct : Action → Bool
  | .compress _ => true
  | _ => false

/-- Recognizer for `releaseCall` actions. -/
def isReleaseAct : Action → Bool
  | .releaseCall _ => true
  | _ => false

/-- Recognizer for `dropSkip` actions. -/
def isDropSkipAct : Action → Bool
  | .dropSkip _ => true
  | _ => false

/-- Recognizer for `dropSmall` actions. -/
def isDropSmallAct : Action → Bool
  | .dropSmall _ => true
  | _ => false

/-- The expected trace of the spec's skip-policy scenario. -/
def skipTrace : List Action :=
  [.dequeued 0 9000, .acquired 0 9000, .dropSkip 0, .releaseCall 0,
   .dequeued 1 9000, .acquired 1 9000, .dropSkip 1, .releaseCall 1,
   .dequeued 2 500, .acquired 2 500, .dropSmall 2, .releaseCall 2,
   .dequeued 3 9000, .acquired 3 9000, .dropSkip 3, .releaseCall 3,
   .dequeued 4 9000, .acquired 4 9000, .dropSkip 4, .releaseCall 4,
   .dequeued 5 9000, .acquired 5 9000, .compress 5, .releaseCall 5]

/-! ## Helper lemmas -/

/-- The frame policy always decides one of drop-by-skip, drop-too-small, or
compress, on the acquired buffer's own index. -/
theorem framePolicy_shape (dev : Dev) (fc idx bytes : Nat) :
    (framePolicy dev fc idx bytes).2 = .dropSkip idx ∨
    (framePolicy dev fc idx bytes).2 = .dropSmall idx ∨
    (framePolicy dev fc idx bytes).2 = .compress idx := by
  unfold framePolicy
  split_ifs <;> simp

/-- If the read branch recorded a successful acquisition of buffer `idx`,
its trace is exactly dequeue, acquire, the policy decision, and one release
call on `idx`, in that order. -/
theorem readPhase_acquired (dev : Dev) (env : Env) (it fc idx bytes : Nat)
    (h : Action.acquired idx bytes ∈ (readPhase dev env it fc).2) :
    (readPhase dev env it fc).2 =
      [.dequeued idx bytes, .acquired idx bytes,
       (framePolicy dev fc idx bytes).2, .releaseCall idx] := by
  unfold readPhase at h ⊢
  cases hg : env.grab it with
  | dqbufFail => rw [hg] at h; simp at h
  | dqbufOk i b =>
      rw [hg] at h
      by_cases hidx : dev.nBuffers ≤ i
      · simp [hidx] at h
      · rcases framePolicy_shape dev fc i b with hp | hp | hp <;>
          by_cases hr : env.releaseOk it = true <;>
            simp [hidx, hr, hp] at h ⊢ <;>
            simp_all

/-- The trace of one iteration is either empty or exactly the trace of its
read branch. -/
theorem iteration_acts (dev : Dev) (env : Env) (it fc : Nat) :
    (iteration dev env it fc).2 = [] ∨
    (iteration dev env it fc).2 = (readPhase dev env it fc).2 := by
  rcases hrp : readPhase dev env it fc with ⟨o, acts⟩
  unfold iteration
  cases hsel : env.select it with
  | interrupted => left; rfl
  | selErr => left; rfl
  | timeout => left; rfl
  | ready r w e =>
      cases r <;> cases o <;> cases w <;> cases e <;>
        simp [hrp] <;> split_ifs <;> simp

/-! ## Claim theorems -/

/-- Claim C2: with skip factor 3 and minimum frame size 8000, six
consecutive error-free frames of sizes [9000, 9000, 500, 9000, 9000, 9000]
produce exactly the trace `skipTrace`: frames 1, 2, 4, 5 (buffers 0, 1, 3, 4)
are dropped by the skip policy, frame 3 (buffer 2) is dropped as too small
even though it sat in the keep slot, only frame 6 (buffer 5) is forwarded to
compression, and all six buffers are released back to the driver. -/
theorem skip_scenario_forwards_only_sixth_frame :
    mainloop devSkip envSkip 7 0 0 0 = some (7, 6, true, skipTrace) ∧
    skipTrace.filter isCompressAct = [.compress 5] ∧
    skipTrace.filter isReleaseAct =
      [.releaseCall 0, .releaseCall 1, .releaseCall 2,
       .releaseCall 3, .releaseCall 4, .releaseCall 5] ∧
    skipTrace.filter isDropSkipAct =
      [.dropSkip 0, .dropSkip 1, .dropSkip 3, .dropSkip 4] ∧
    skipTrace.filter isDropSmallAct = [.dropSmall 2] := by
  refine ⟨by decide, by decide, by decide, by decide, by decide⟩

/-- Claim C3: in any mainloop iteration, a successful buffer acquisition is
followed by the policy decision and then exactly one release call for the
same buffer index, whichever path (skip-drop, too-small drop, or forward)
was taken; no path releases the buffer twice. -/
theorem acquired_buffer_released_exactly_once (dev : Dev) (env : Env)
    (it fc idx bytes : Nat)
    (h : Action.acquired idx bytes ∈ (iteration dev env it fc).2) :
    (iteration dev env it fc).2 =
      [.dequeued idx bytes, .acquired idx bytes,
       (framePolicy dev fc idx bytes).2, .releaseCall idx] ∧
    (iteration dev env it fc).2.count (.releaseCall idx) = 1 := by
  rcases iteration_acts dev env it fc with he | he
  · rw [he] at h; simp at h
  · rw [he] at h ⊢
    have hs := readPhase_acquired dev env it fc idx bytes h
    rw [hs]
    refine ⟨rfl, ?_⟩
    rcases framePolicy_shape dev fc idx bytes with hp | hp | hp <;>
      simp [hp, List.count_cons]

/-- Witness for C3 at the skip scenario's first iteration. -/
theorem acquired_buffer_released_exactly_once_witness :
    Action.acquired 0 9000 ∈ (iteration devSkip envSkip 0 0).2 ∧
    (iteration devSkip envSkip 0 0).2.count (.releaseCall 0) = 1 :=
  ⟨by decide,
   (acquired_buffer_released_exactly_once devSkip envSkip 0 0 0 9000 (by decide)).2⟩

/-- Claim C5: whenever select reports the descriptor write-ready, the
iteration ends the session as fatal, whether or not it is simultaneously
read-ready and whatever the grab, release and event outcomes are. -/
theorem write_ready_always_fatal (dev : Dev) (env : Env) (it fc : Nat)
    (r e : Bool) (h : env.select it = .ready r true e) :
    (iteration dev env it fc).1 = .fatal := by
  rcases hrp : readPhase dev env it fc with ⟨o, acts⟩
  unfold iteration
  rw [h]
  cases r <;> cases o <;> simp [hrp]

/-- Witness for C5: write-ready-only select in `envWrite` is fatal. -/
theorem write_ready_always_fatal_witness :
    envWrite.select 0 = .ready false true false ∧
    (iteration dev0 envWrite 0 0).1 = .fatal :=
  ⟨by decide, write_ready_always_fatal dev0 envWrite 0 0 false false (by decide)⟩

/-- Claim C10: when the dequeue succeeds but returns an index at or above
the negotiated buffer count, the iteration is fatal for the session and the
trace records the dequeue but no release call for that buffer, so the
buffer stays application-owned when the session ends. -/
theorem bad_index_fatal_without_release (dev : Dev) (env : Env)
    (it fc idx bytes : Nat) (w e : Bool)
    (hsel : env.select it = .ready true w e)
    (hgrab : env.grab it = .dqbufOk idx bytes)
    (hidx : dev.nBuffers ≤ idx) :
    (iteration dev env it fc).1 = .fatal ∧
    (iteration dev env it fc).2 = [.dequeued idx bytes] ∧
    (iteration dev env it fc).2.count (.releaseCall idx) = 0 := by
  unfold iteration readPhase
  rw [hsel, hgrab]
  simp [hidx, List.count_cons]

/-- Witness for C10: the out-of-range dequeue of `envBadIndex` on `dev0`. -/
theorem bad_index_fatal_without_release_witness :
    envBadIndex.select 0 = .ready true false false ∧
    envBadIndex.grab 0 = .dqbufOk 9 5000 ∧
    dev0.nBuffers ≤ 9 ∧
    (iteration dev0 envBadIndex 0 0).1 = .fatal ∧
    (iteration dev0 envBadIndex 0 0).2.count (.releaseCall 9) = 0 := by
  have h := bad_index_fatal_without_release dev0 envBadIndex 0 0 9 5000
    false false (by decide) (by decide) (by decide)
  exact ⟨by decide, by decide, by decide, h.1, h.2.2⟩

/-- Claim C6: `_capture_control` is idempotent.  When the requested enable
state equals the recorded capturing flag, the call succeeds, issues no
STREAMON/STREAMOFF ioctl, and leaves the flag unchanged; consequently two
consecutive successful enable calls issue exactly one start ioctl in
total. -/
theorem set_streaming_idempotent :
    (∀ c ok : Bool, captureControl c c ok = (0, c, 0)) ∧
    (∀ ok1 ok2 : Bool, (captureControl false true ok1).1 = 0 →
      (captureControl false true ok1).2.2 +
        (captureControl (captureControl false true ok1).2.1 true ok2).2.2 = 1) := by
  constructor
  · intro c ok
    simp [captureControl]
  · intro ok1 ok2 h
    cases ok1 <;> simp_all [captureControl]

/-- Witness for C6: a no-op repeated-enable pair issuing one ioctl. -/
theorem set_streaming_idempotent_witness :
    captureControl true true true = (0, true, 0) ∧
    (captureControl false true true).2.2 +
      (captureControl (captureControl false true true).2.1 true true).2.2 = 1 :=
  ⟨set_streaming_idempotent.1 true true,
   set_streaming_idempotent.2 true true (by decide)⟩

/-- Claim C7: the event handler returns -1 (reinit required) exactly on a
dequeued source-change event; an end-of-stream event, a failed dequeue, and
any other event type all return 0 (ignore); no other return value is
possible. -/
theorem handle_event_verdicts :
    captureHandleEvent (.dqeventOk V4L2_EVENT_SOURCE_CHANGE) = -1 ∧
    captureHandleEvent (.dqeventOk V4L2_EVENT_EOS) = 0 ∧
    captureHandleEvent .dqeventFail = 0 ∧
    (∀ etype, captureHandleEvent (.dqeventOk etype) =
      if etype = V4L2_EVENT_SOURCE_CHANGE then -1 else 0) ∧
    (∀ o, captureHandleEvent o = -1 ∨ captureHandleEvent o = 0) := by
  refine ⟨by decide, by decide, rfl, fun etype => ?_, fun o => ?_⟩
  · simp only [captureHandleEvent]
    split_ifs <;> rfl
  · cases o with
    | dqeventFail => right; rfl
    | dqeventOk etype =>
        simp only [captureHandleEvent]
        split_ifs
        · left; rfl
        · right; rfl
        · right; rfl

/-- Claim C9: a stop request (`enable = false`) while capturing succeeds and
clears the recorded flag even when the STREAMOFF ioctl fails, whereas a
failed start leaves the flag unchanged and returns -1. -/
theorem stop_succeeds_despite_ioctl_failure :
    (∀ ok : Bool, captureControl true false ok = (0, false, 1)) ∧
    captureControl false true false = (-1, false, 1) := by
  exact ⟨fun ok => by cases ok <;> decide, by decide⟩

/-- The spawn loop never returns -1: its failures are all `assert`s. -/
theorem initWorkersLoop_ne_fail (wenv : WorkersEnv) :
    ∀ k i, initWorkersLoop wenv k i ≠ .fail := by
  intro k
  induction k with
  | zero => intro i; simp [initWorkersLoop]
  | succ k ih =>
      intro i
      unfold initWorkersLoop
      split_ifs <;> simp_all

/-- The spawn loop returns 0 exactly when all its per-index pthread calls
succeed. -/
theorem initWorkersLoop_ok_iff (wenv : WorkersEnv) :
    ∀ k i, initWorkersLoop wenv k i = .ok ↔ loopOk wenv k i = true := by
  intro k
  induction k with
  | zero => intro i; simp [initWorkersLoop, loopOk]
  | succ k ih =>
      intro i
      unfold initWorkersLoop loopOk
      rcases hm : wenv.mutexOk i <;> rcases hc : wenv.condOk i <;>
        rcases hcr : wenv.createOk i <;> simp_all

/-- Counterexample to claim C4 as stated: with a failed `pthread_create`,
`_capture_init_workers` does not report failure to the supervisor — the
failed `assert` aborts the whole process. -/
theorem init_workers_pthread_failure_aborts :
    initWorkers 1 wenvCreateFail = .aborted ∧
    initWorkers 1 wenvCreateFail ≠ .fail := by
  refine ⟨by decide, by decide⟩

/-- Claim C4 (amended): `_capture_init_workers` reports failure to the
supervisor (return -1, folding into the retry path) exactly when the
`calloc` of the worker array fails; when `calloc` succeeds it returns 0
exactly when every `assert`-guarded pthread call succeeds, and otherwise
the failed `assert` aborts the process. -/
theorem init_workers_characterization (n : Nat) (wenv : WorkersEnv) :
    (initWorkers n wenv = .fail ↔ wenv.callocOk = false) ∧
    (initWorkers n wenv = .ok ↔
      wenv.callocOk = true ∧ allPthreadOk n wenv = true) ∧
    (initWorkers n wenv = .aborted ↔
      wenv.callocOk = true ∧ allPthreadOk n wenv = false) := by
  have hnf := initWorkersLoop_ne_fail wenv n 0
  have hok := initWorkersLoop_ok_iff wenv n 0
  unfold initWorkers allPthreadOk
  rcases hc : wenv.callocOk <;> rcases hm : wenv.poolMutexOk <;>
    rcases hco : wenv.poolCondOk <;> simp_all
  rcases ho : initWorkersLoop wenv n 0 with _ | _ | _ <;> simp_all

/-- A worker body that returned observed the stop flag set at the read it
returned from. -/
theorem workerBody_some (stop : Nat → Bool) :
    ∀ fuel t u, workerBody stop fuel t = some u → t ≤ u ∧ stop u = true := by
  intro fuel
  induction fuel with
  | zero => intro t u h; simp [workerBody] at h
  | succ fuel ih =>
      intro t u h
      unfold workerBody at h
      by_cases hs : stop t = true
      · rw [if_pos hs] at h
        obtain rfl : t = u := by simpa using h
        exact ⟨le_refl t, hs⟩
      · rw [if_neg hs] at h
        have := ih (t + 1) u h
        exact ⟨Nat.le_of_succ_le this.1, this.2⟩

/-- If the stop flag is set at some read, the worker body terminates with
enough fuel. -/
theorem workerBody_terminates (stop : Nat → Bool) :
    ∀ k t, stop (t + k) = true → (workerBody stop (k + 1) t).isSome := by
  intro k
  induction k with
  | zero =>
      intro t h
      simp only [Nat.add_zero] at h
      simp [workerBody, h]
  | succ k ih =>
      intro t h
      unfold workerBody
      by_cases hs : stop t = true
      · simp [hs]
      · rw [if_neg hs]
        have h' : stop ((t + 1) + k) = true := by
          have : (t + 1) + k = t + (k + 1) := by omega
          rw [this]; exact h
        exact ih (t + 1) h'

/-- Claim C8: a worker thread's body terminates exactly when the shared
stop flag is set at one of its reads, and joining a non-empty worker pool
(as `_capture_destroy_workers` does, including at the start of every
session reinitialization) can only complete when the stop flag has been
observed set. -/
theorem worker_terminates_iff_stop (stop : Nat → Bool) :
    ((∃ fuel u, workerBody stop fuel 0 = some u) ↔ ∃ u, stop u = true) ∧
    (∀ n fuel start, 0 < n → joinWorkers stop n fuel start = true →
      ∃ u, stop u = true) := by
  constructor
  · constructor
    · rintro ⟨fuel, u, h⟩
      exact ⟨u, (workerBody_some stop fuel 0 u h).2⟩
    · rintro ⟨u, hu⟩
      have hterm := workerBody_terminates stop u 0 (by simpa using hu)
      rcases Option.isSome_iff_exists.mp hterm with ⟨v, hv⟩
      exact ⟨u + 1, v, hv⟩
  · intro n fuel start hn hj
    unfold joinWorkers at hj
    have h0 : (workerBody stop fuel (start 0)).isSome = true := by
      have hmem : 0 ∈ List.range n := List.mem_range.mpr hn
      exact List.all_eq_true.mp hj 0 hmem
    rcases Option.isSome_iff_exists.mp h0 with ⟨v, hv⟩
    exact ⟨v, (workerBody_some stop fuel (start 0) v hv).2⟩

/-- Witness for C8 with the stop flag latched from the start. -/
theorem worker_terminates_iff_stop_witness :
    ((∃ fuel u, workerBody (fun _ => true) fuel 0 = some u) ↔
      ∃ u, (fun _ : Nat => true) u = true) ∧
    (∃ u, (fun _ : Nat => true) u = true) :=
  ⟨(worker_terminates_iff_stop (fun _ => true)).1,
   (worker_terminates_iff_stop (fun _ => true)).2 1 1 (fun _ => 0)
     (by decide) (by decide)⟩

/-- A run of the init-retry loop advances the stop-read counter. -/
theorem initLoop_lt (env : Env) :
    ∀ fuel t a t' a' b, initLoop env fuel t a = some (t', a', b) → t < t' := by
  intro fuel
  induction fuel with
  | zero => intro t a t' a' b h; simp [initLoop] at h
  | succ fuel ih =>
      intro t a t' a' b h
      unfold initLoop at h
      by_cases h1 : env.stop t = true
      · rw [if_pos h1] at h
        simp only [Option.some.injEq, Prod.mk.injEq] at h
        omega
      · rw [if_neg h1] at h
        by_cases h2 : env.initOk a = true
        · rw [if_pos h2] at h
          simp only [Option.some.injEq, Prod.mk.injEq] at h
          omega
        · rw [if_neg h2] at h
          have := ih (t + 1) (a + 1) t' a' b h
          omega

/-- The init-retry loop exits with failure only by observing the stop flag
set. -/
theorem initLoop_false_stop (env : Env) :
    ∀ fuel t a t' a', initLoop env fuel t a = some (t', a', false) →
      ∃ u, t ≤ u ∧ env.stop u = true := by
  intro fuel
  induction fuel with
  | zero => intro t a t' a' h; simp [initLoop] at h
  | succ fuel ih =>
      intro t a t' a' h
      unfold initLoop at h
      by_cases h1 : env.stop t = true
      · exact ⟨t, le_refl t, h1⟩
      · rw [if_neg h1] at h
        by_cases h2 : env.initOk a = true
        · rw [if_pos h2] at h
          simp at h
        · rw [if_neg h2] at h
          rcases ih (t + 1) (a + 1) t' a' h with ⟨u, hu1, hu2⟩
          exact ⟨u, by omega, hu2⟩

/-- A run of the session mainloop advances the stop-read counter. -/
theorem mainloop_lt (dev : Dev) (env : Env) :
    ∀ fuel t it fc t' it' b acts,
      mainloop dev env fuel t it fc = some (t', it', b, acts) → t < t' := by
  intro fuel
  induction fuel with
  | zero => intro t it fc t' it' b acts h; simp [mainloop] at h
  | succ fuel ih =>
      intro t it fc t' it' b acts h
      unfold mainloop at h
      by_cases h1 : env.stop t = true
      · rw [if_pos h1] at h
        simp only [Option.some.injEq, Prod.mk.injEq] at h
        omega
      · rw [if_neg h1] at h
        rcases hit : iteration dev env it fc with ⟨step, acts0⟩
        rw [hit] at h
        cases step with
        | fatal =>
            simp only [Option.some.injEq, Prod.mk.injEq] at h
            omega
        | cont fc' =>
            rcases hrec : mainloop dev env fuel (t + 1) (it + 1) fc' with _ | ⟨t2, it2, b2, rest⟩
            · simp [hrec] at h
            · simp only [hrec, Option.some.injEq, Prod.mk.injEq] at h
              have := ih (t + 1) (it + 1) fc' t2 it2 b2 rest hrec
              omega

/-- Claim C1: whenever `capture_loop` returns (for any environment, any
number of failed session initializations and any number of fatally ended
mainloop runs), the stop flag was observed set at some read at or after
entry, and the returned trace ends with the teardown epilogue: destroy the
worker pool, `_capture_control(dev, false)`, `device_close(dev)`. -/
theorem capture_loop_returns_only_after_stop (dev : Dev) (env : Env) :
    ∀ fuel t a it tf acts,
      captureLoopAux dev env fuel t a it = some (tf, acts) →
      (∃ u, t ≤ u ∧ env.stop u = true) ∧ ∃ pre, acts = pre ++ teardownActs := by
  intro fuel
  induction fuel with
  | zero => intro t a it tf acts h; simp [captureLoopAux] at h
  | succ fuel ih =>
      intro t a it tf acts h
      unfold captureLoopAux at h
      rcases hinit : initLoop env (fuel + 1) t a with _ | ⟨t', a', b⟩
      · rw [hinit] at h; simp at h
      · rw [hinit] at h
        cases b with
        | false =>
            simp only [Option.some.injEq, Prod.mk.injEq] at h
            rcases initLoop_false_stop env (fuel + 1) t a t' a' hinit with ⟨u, hu1, hu2⟩
            exact ⟨⟨u, hu1, hu2⟩, [], by rw [← h.2]; simp⟩
        | true =>
            rcases hm : mainloop dev env (fuel + 1) t' it 0
              with _ | ⟨t'', it', bb, macts⟩
            · simp [hm] at h
            · rcases hc : captureLoopAux dev env fuel t'' a' it'
                with _ | ⟨tf2, rest⟩
              · simp [hm, hc] at h
              · simp only [hm, hc, Option.some.injEq, Prod.mk.injEq] at h
                rcases ih t'' a' it' tf2 rest hc with ⟨⟨u, hu1, hu2⟩, pre, hpre⟩
                have ht1 : t < t' := initLoop_lt env (fuel + 1) t a t' a' true hinit
                have ht2 : t' < t'' := mainloop_lt dev env (fuel + 1) t' it 0 t'' it' bb macts hm
                refine ⟨⟨u, by omega, hu2⟩, macts ++ pre, ?_⟩
                rw [← h.2, hpre, List.append_assoc]

/-- Witness for C1: with the stop flag latched from the first read, one
outer pass returns immediately with exactly the teardown trace. -/
theorem capture_loop_returns_only_after_stop_witness :
    captureLoopAux dev0 envStopNow 1 0 0 0 = some (1, teardownActs) ∧
    ((∃ u, 0 ≤ u ∧ envStopNow.stop u = true) ∧
      ∃ pre, teardownActs = pre ++ teardownActs) :=
  ⟨by decide,
   capture_loop_returns_only_after_stop dev0 envStopNow 1 0 0 0 1 teardownActs
     (by decide)⟩

end Capture
